import Mathlib

/-!
Verification of the request/response pipeline of the Provar AI Test Case
Generator (`app.py`): the document validator, the fence and JSON extractors,
the vision request construction, and the generate-button orchestration.
Text is modelled as `String` / `List Char`; the Python substring operations
are modelled by the executable functions `beginsWith`, `containsSub` and
`countOcc` below.  Network effects are modelled by an explicit `HttpOutcome`
value describing what the single `requests.post` call returned.
-/

namespace ProvarGen

/-- Test whether `pat` is a leading segment of `s`, as in Python
`s.startswith(pat)` on character lists. -/
def beginsWith : List Char → List Char → Bool
  | [], _ => true
  | _ :: _, [] => false
  | a :: as, b :: bs => a == b && beginsWith as bs

/-- Test whether `pat` occurs as a contiguous substring of `s`, as in the
Python containment operator on strings. -/
def containsSub (pat : List Char) : List Char → Bool
  | [] => beginsWith pat []
  | c :: rest => beginsWith pat (c :: rest) || containsSub pat rest

/-- Number of positions at which `pat` occurs in `s`.  For the patterns used
by the validator (none of which can overlap themselves, having a unique
letter first char) this equals Python `len(re.findall(pat, s))` for the
literal pattern `pat`. -/
def countOcc (pat : List Char) : List Char → Nat
  | [] => 0
  | c :: rest => (if beginsWith pat (c :: rest) then 1 else 0) + countOcc pat rest

/-- Python `pat in s` on strings. -/
def containsStr (s pat : String) : Bool := containsSub pat.data s.data

/-- Python `s.startswith(pat)` on strings. -/
def startsWithStr (s pat : String) : Bool := beginsWith pat.data s.data

/-- The `validation` dict built by `validate_provar_test` (app.py 336-341):
fields `is_valid`, `errors`, `warnings`, `info`. -/
structure ValidationResult where
  is_valid : Bool
  errors : List String
  warnings : List String
  info : List String
  deriving Repr, DecidableEq

/-- The closed action vocabulary `sf_actions` (app.py 360). -/
def sf_actions : List String :=
  ["SfNavigate", "SfClick", "SfEnterText", "SfVerify", "SfLogin", "SfWait", "SfSelect"]

/-- The check `any(action in xml_content for action in sf_actions)`
(app.py 361). -/
def hasSfActions (xml : String) : Bool := sf_actions.any (fun a => containsStr xml a)

/-- The characters of the step pattern `<step` (app.py 376). -/
def stepPat : List Char := ['<', 's', 't', 'e', 'p']

/-- The characters of the steps-container pattern `<steps`. -/
def stepsPat : List Char := ['<', 's', 't', 'e', 'p', 's']

/-- The count `len(re.findall(` of the `<step` pattern `, xml_content))`
(app.py 376): the number of occurrences of the literal substring `<step`. -/
def stepCount (xml : String) : Nat := countOcc stepPat xml.data

/-- The interpolated info string of app.py 378: a check-mark, the word
Contains, the step count, and the words test steps. -/
def stepCountMsg (n : Nat) : String := "✓ Contains " ++ toString n ++ " test steps"

/-- The validator `validate_provar_test` (app.py 334-388).  The Python code mutates the
four fields sequentially; each field below is the concatenation of its
appends in source order, and `is_valid` (initially `True`, set `False` by
the two error rules) is the conjunction of the two error-rule conditions. -/
def validate_provar_test (xml : String) : ValidationResult :=
  { is_valid := containsStr xml "<testCase" && containsStr xml "<steps>"
    errors :=
      (if containsStr xml "<testCase" then [] else ["Missing <testCase> root element"]) ++
      (if containsStr xml "<steps>" then [] else ["Missing <steps> element"])
    warnings :=
      (if startsWithStr xml "<?xml" then [] else ["Missing XML declaration"]) ++
      (if containsStr xml "<summary>" then [] else ["Missing <summary> element"]) ++
      (if hasSfActions xml then []
        else ["No Salesforce-specific actions found. Generic actions may not work in Provar."]) ++
      (if containsStr xml "<locator" then [] else ["No element locators found"])
    info :=
      (if hasSfActions xml then ["✓ Contains Salesforce-specific Provar actions"] else []) ++
      (if containsStr xml "<locator" then ["✓ Contains element locators"] else []) ++
      (if 0 < stepCount xml then [stepCountMsg (stepCount xml)] else []) ++
      (if containsStr xml "SfWait" || containsStr xml "waitForPageLoad" then
        ["✓ Includes wait conditions"] else []) ++
      (if containsStr xml "SfVerify" || containsStr xml "Assert" then
        ["✓ Includes verification/assertions"] else []) }

/-- C1: for every input string, the `ValidationResult` returned by
`validate_provar_test` has `is_valid = true` if and only if its `errors`
list is empty. -/
theorem validator_isValid_iff_errors_empty (xml : String) :
    (validate_provar_test xml).is_valid = true ↔ (validate_provar_test xml).errors = [] := by
  unfold validate_provar_test
  cases h1 : containsStr xml "<testCase" <;> cases h2 : containsStr xml "<steps>" <;> simp

/-- Witness for C1 at a concrete document. -/
theorem validator_isValid_iff_errors_empty_witness :
    (validate_provar_test "<testCase><steps></steps></testCase>").is_valid = true ↔
      (validate_provar_test "<testCase><steps></steps></testCase>").errors = [] :=
  validator_isValid_iff_errors_empty "<testCase><steps></steps></testCase>"

/-- C2: any document that does not contain the substring `<testCase` is
classified invalid and its errors contain the missing-root message. -/
theorem validator_missing_root (xml : String)
    (h : containsStr xml "<testCase" = false) :
    (validate_provar_test xml).is_valid = false ∧
      "Missing <testCase> root element" ∈ (validate_provar_test xml).errors := by
  unfold validate_provar_test
  simp [h]

/-- Witness for C2: a summary-only document. -/
theorem validator_missing_root_witness :
    containsStr "<summary>hi</summary>" "<testCase" = false ∧
      (validate_provar_test "<summary>hi</summary>").is_valid = false ∧
      "Missing <testCase> root element" ∈ (validate_provar_test "<summary>hi</summary>").errors :=
  ⟨by decide, validator_missing_root "<summary>hi</summary>" (by decide)⟩

/-- Occurrences of `<step` in `s` that are not occurrences of `<steps`,
i.e. actual `<step ...>` step entries as opposed to the `<steps>` container
open tag (whose first six characters also match the `<step` pattern). -/
def countStepOnly : List Char → Nat
  | [] => 0
  | c :: rest =>
    (if beginsWith stepPat (c :: rest) && !beginsWith stepsPat (c :: rest)
      then 1 else 0) + countStepOnly rest

theorem beginsWith_trans {p q s : List Char} (h1 : beginsWith p q = true)
    (h2 : beginsWith q s = true) : beginsWith p s = true := by
  induction p generalizing q s with
  | nil => simp [beginsWith]
  | cons a as ih =>
    cases q with
    | nil => simp [beginsWith] at h1
    | cons b bs =>
      cases s with
      | nil => simp [beginsWith] at h2
      | cons c cs =>
        simp only [beginsWith, Bool.and_eq_true, beq_iff_eq] at h1 h2 ⊢
        exact ⟨h1.1.trans h2.1, ih h1.2 h2.2⟩

theorem containsSub_mono {p q s : List Char} (hpq : beginsWith p q = true)
    (h : containsSub q s = true) : containsSub p s = true := by
  induction s with
  | nil =>
    simp only [containsSub] at h ⊢
    cases q with
    | nil =>
      cases p with
      | nil => simp [beginsWith]
      | cons a as => simp [beginsWith] at hpq
    | cons b bs => simp [beginsWith] at h
  | cons c rest ih =>
    simp only [containsSub, Bool.or_eq_true] at h ⊢
    rcases h with h | h
    · exact Or.inl (beginsWith_trans hpq h)
    · exact Or.inr (ih h)

theorem countOcc_pos_of_containsSub {pat s : List Char} (h : containsSub pat s = true)
    (hne : pat ≠ []) : 0 < countOcc pat s := by
  induction s with
  | nil =>
    cases pat with
    | nil => exact absurd rfl hne
    | cons a as => simp [containsSub, beginsWith] at h
  | cons c rest ih =>
    simp only [containsSub, Bool.or_eq_true] at h
    unfold countOcc
    rcases h with h | h
    · simp [h]
    · have := ih h
      split <;> omega

/-- Every position counted by the `<steps` pattern is counted by the `<step`
pattern, and the remaining `<step` positions are exactly `countStepOnly`. -/
theorem countOcc_step_partition (s : List Char) :
    countOcc stepPat s = countOcc stepsPat s + countStepOnly s := by
  induction s with
  | nil => rfl
  | cons c rest ih =>
    have hmono : beginsWith stepsPat (c :: rest) = true →
        beginsWith stepPat (c :: rest) = true :=
      fun h => beginsWith_trans (by decide) h
    unfold countOcc countStepOnly
    cases h1 : beginsWith stepPat (c :: rest) <;>
      cases h2 : beginsWith stepsPat (c :: rest) <;>
      simp [h1, h2] at hmono ⊢ <;> omega

/-- C10: the validator emits the step-count info entry iff the substring
`<step` occurs at least once, the reported count is the total number of
`<step` occurrences, that total splits as (occurrences of the `<steps`
container pattern) + (actual `<step` entries not extending to `<steps`),
and any document containing `<steps>` gets a count strictly exceeding its
actual step entries. -/
theorem validator_step_count (xml : String) :
    (stepCountMsg (stepCount xml) ∈ (validate_provar_test xml).info ↔ 0 < stepCount xml) ∧
    stepCount xml = countOcc stepsPat xml.data + countStepOnly xml.data ∧
    (containsStr xml "<steps>" = true → countStepOnly xml.data + 1 ≤ stepCount xml) := by
  refine ⟨⟨?_, ?_⟩, countOcc_step_partition xml.data, ?_⟩
  · intro hmem
    by_contra hn
    have h0 : stepCount xml = 0 := by omega
    cases hA : hasSfActions xml <;> cases hL : containsStr xml "<locator" <;>
      cases hW : (containsStr xml "SfWait" || containsStr xml "waitForPageLoad") <;>
      cases hV : (containsStr xml "SfVerify" || containsStr xml "Assert") <;>
      simp only [validate_provar_test, h0, hA, hL, hW, hV, if_true, if_false,
        Nat.lt_irrefl, List.append_nil, List.nil_append, List.append_assoc] at hmem <;>
      revert hmem <;> decide
  · intro h
    simp only [validate_provar_test, h, if_true, List.mem_append, List.mem_singleton]
    tauto
  · intro h
    unfold containsStr at h
    have h1 : containsSub stepsPat xml.data = true :=
      containsSub_mono (by decide) h
    have h2 : 0 < countOcc stepsPat xml.data :=
      countOcc_pos_of_containsSub h1 (by decide)
    have h3 := countOcc_step_partition xml.data
    unfold stepCount
    omega

/-- Witness for C10 on a concrete document: one `<steps>` container and one
actual step entry give a reported count of 2. -/
theorem validator_step_count_witness :
    stepCount "<steps><step x></steps>" = 2 ∧
    countOcc stepsPat ("<steps><step x></steps>").data = 1 ∧
    countStepOnly ("<steps><step x></steps>").data = 1 ∧
    stepCountMsg (stepCount "<steps><step x></steps>") ∈
      (validate_provar_test "<steps><step x></steps>").info ∧
    countStepOnly ("<steps><step x></steps>").data + 1 ≤ stepCount "<steps><step x></steps>" :=
  ⟨by decide, by decide, by decide,
    ((validator_step_count "<steps><step x></steps>").1).2 (by decide),
    (validator_step_count "<steps><step x></steps>").2.2 (by decide)⟩

/-! ## Document Extractor (`generate_provar_test`, app.py 311-325) -/

/-- The backquote character. -/
def backquote : Char := Char.ofNat 96

/-- Characters the Python `str.strip()` removes (the ASCII whitespace set). -/
def pyIsSpace (c : Char) : Bool :=
  c = ' ' || c = '\t' || c = '\n' || c = '\r' || c = Char.ofNat 11 || c = Char.ofNat 12

/-- Python `s.strip()` on character lists. -/
def pyStrip (cs : List Char) : List Char :=
  ((cs.dropWhile pyIsSpace).reverse.dropWhile pyIsSpace).reverse

/-- Python `s.strip()` on strings. -/
def pyStripStr (s : String) : String := ⟨pyStrip s.data⟩

/-- The closing fence marker of both regexes at app.py 317 and 321
(a newline followed by three backquotes). -/
def fenceClose : List Char := ['\n', backquote, backquote, backquote]

/-- The labeled fence opener (three backquotes, `xml`, newline) of the regex
at app.py 317. -/
def xmlFenceOpen : List Char := [backquote, backquote, backquote, 'x', 'm', 'l', '\n']

/-- The generic fence opener (three backquotes, newline) of the regex at
app.py 321. -/
def genFenceOpen : List Char := [backquote, backquote, backquote, '\n']

/-- Index of the first occurrence of `pat` in `s`, if any. -/
def findIdx (pat : List Char) : List Char → Option Nat
  | [] => if pat = [] then some 0 else none
  | c :: rest =>
    if beginsWith pat (c :: rest) then some 0
    else (findIdx pat rest).map (· + 1)

/-- The lazy fence regex search of app.py 317-323: the match starts at the
leftmost position where the opener `op` occurs with the close marker
somewhere after it, and the captured group ends at the first close marker
after the opener (the `*?` quantifier is lazy, and `re.search` backtracks
past openers that have no later close marker). -/
def fenceInner (op : List Char) : List Char → Option (List Char)
  | [] => none
  | c :: rest =>
    if beginsWith op (c :: rest) then
      match findIdx fenceClose ((c :: rest).drop op.length) with
      | some j => some (((c :: rest).drop op.length).take j)
      | none => fenceInner op rest
    else fenceInner op rest

/-- The response-text post-processing of `generate_provar_test` (app.py
315-325): extract a labeled ```xml fence if one is present, else a generic
fence, else keep the whole text; strip the result. -/
def generate_extract (content : String) : String :=
  match fenceInner xmlFenceOpen content.data with
  | some inner => ⟨pyStrip inner⟩
  | none =>
    match fenceInner genFenceOpen content.data with
    | some inner => ⟨pyStrip inner⟩
    | none => ⟨pyStrip content.data⟩

theorem beginsWith_cons (a b : Char) (as bs : List Char) :
    beginsWith (a :: as) (b :: bs) = (a == b && beginsWith as bs) := rfl

theorem beginsWith_append_self (p t : List Char) : beginsWith p (p ++ t) = true := by
  induction p with
  | nil => rfl
  | cons a as ih => simp [beginsWith, ih]

theorem beginsWith_append_of_le {p a : List Char} (b : List Char)
    (h : p.length ≤ a.length) : beginsWith p (a ++ b) = beginsWith p a := by
  induction p generalizing a with
  | nil => simp [beginsWith]
  | cons x xs ih =>
    cases a with
    | nil => simp at h
    | cons y ys =>
      simp only [List.cons_append, beginsWith, List.append_eq]
      rw [ih (by simpa using Nat.succ_le_succ_iff.mp h)]

/-- The close marker cannot straddle the boundary between a short tail of
the wrapped text and the appended close marker. -/
theorem fenceClose_no_straddle (c : Char) (t : List Char) (h : t.length ≤ 2) :
    beginsWith fenceClose (c :: (t ++ fenceClose)) = false := by
  match t with
  | [] =>
    rw [show fenceClose = '\n' :: [backquote, backquote, backquote] from rfl, List.nil_append,
      beginsWith_cons,
      show beginsWith [backquote, backquote, backquote]
        ['\n', backquote, backquote, backquote] = false from by decide,
      Bool.and_false]
  | [b] =>
    rw [show fenceClose = '\n' :: [backquote, backquote, backquote] from rfl, List.cons_append,
      List.nil_append, beginsWith_cons, beginsWith_cons,
      show beginsWith [backquote, backquote]
        ['\n', backquote, backquote, backquote] = false from by decide,
      Bool.and_false, Bool.and_false]
  | [b, d] =>
    rw [show fenceClose = '\n' :: [backquote, backquote, backquote] from rfl, List.cons_append,
      List.cons_append, List.nil_append, beginsWith_cons, beginsWith_cons, beginsWith_cons,
      show beginsWith [backquote]
        ['\n', backquote, backquote, backquote] = false from by decide,
      Bool.and_false, Bool.and_false, Bool.and_false]
  | b :: d :: e :: t' => simp at h

/-- If the wrapped text does not itself contain the close marker, the first
occurrence of the close marker in `M ++ fenceClose` is the appended one. -/
theorem findIdx_fenceClose_append {M : List Char} (h : containsSub fenceClose M = false) :
    findIdx fenceClose (M ++ fenceClose) = some M.length := by
  induction M with
  | nil => decide
  | cons c M' ih =>
    simp only [containsSub, Bool.or_eq_false_iff] at h
    have hb2 : beginsWith fenceClose ((c :: M') ++ fenceClose) = false := by
      rcases Nat.lt_or_ge M'.length 3 with hlen | hlen
      · exact fenceClose_no_straddle c M' (by omega)
      · rw [List.cons_append, show c :: (M' ++ fenceClose) = (c :: M') ++ fenceClose from rfl,
          beginsWith_append_of_le fenceClose (by simp [fenceClose]; omega)]
        exact h.1
    rw [List.cons_append] at hb2 ⊢
    simp [findIdx, hb2, ih h.2]

/-- Wrapping well-behaved text in a fence and searching recovers the text. -/
theorem fenceInner_wrap {op : List Char} (M : List Char) (hop : op ≠ [])
    (h : containsSub fenceClose M = false) :
    fenceInner op (op ++ (M ++ fenceClose)) = some M := by
  cases op with
  | nil => exact absurd rfl hop
  | cons o os =>
    have h1 : beginsWith (o :: os) ((o :: os) ++ (M ++ fenceClose)) = true :=
      beginsWith_append_self _ _
    rw [List.cons_append] at h1
    rw [List.cons_append]
    simp only [fenceInner, h1, if_true, List.length_cons, List.drop_succ_cons,
      List.drop_left, findIdx_fenceClose_append h, List.take_left]

/-- If the opener never occurs, the fence search fails. -/
theorem fenceInner_none {op : List Char} (s : List Char)
    (h : containsSub op s = false) : fenceInner op s = none := by
  induction s with
  | nil => rfl
  | cons c rest ih =>
    simp only [containsSub, Bool.or_eq_false_iff] at h
    simp [fenceInner, h.1, ih h.2]

/-- C3 counterexample: for `M = "a\n```\nb"`, which contains the fence close
marker, the lazy regex cuts the captured group short, so extracting the
fence-wrapped `M` does not return `M` stripped. -/
theorem generator_fence_roundtrip_counterexample :
    generate_extract ("```xml\n" ++ "a\n```\nb" ++ "\n```") ≠ pyStripStr "a\n```\nb" := by
  decide

/-- C3 (amended): the round-trip holds for every markup text that does not
itself contain a fence marker: extracting a labeled-fence-wrapped `M` where
`M` has no close marker `"\n```"` gives `M` stripped, and extracting an `M`
containing no triple backquote at all gives `M` stripped unchanged. -/
theorem generator_fence_roundtrip :
    (∀ M : String, containsSub fenceClose M.data = false →
      generate_extract ("```xml\n" ++ M ++ "\n```") = pyStripStr M) ∧
    (∀ M : String, containsSub [backquote, backquote, backquote] M.data = false →
      generate_extract M = pyStripStr M) := by
  constructor
  · intro M h
    have hdata : ("```xml\n" ++ M ++ "\n```").data = xmlFenceOpen ++ (M.data ++ fenceClose) := by
      simp [String.data_append, xmlFenceOpen, fenceClose, backquote]
    unfold generate_extract
    rw [hdata, fenceInner_wrap M.data (by decide) h]
    rfl
  · intro M h
    have h1 : containsSub xmlFenceOpen M.data = false := by
      cases hx : containsSub xmlFenceOpen M.data with
      | false => rfl
      | true =>
        have := @containsSub_mono [backquote, backquote, backquote] _ _ (by decide) hx
        rw [h] at this
        exact Bool.noConfusion this
    have h2 : containsSub genFenceOpen M.data = false := by
      cases hx : containsSub genFenceOpen M.data with
      | false => rfl
      | true =>
        have := @containsSub_mono [backquote, backquote, backquote] _ _ (by decide) hx
        rw [h] at this
        exact Bool.noConfusion this
    unfold generate_extract
    rw [fenceInner_none M.data h1, fenceInner_none M.data h2]
    rfl

/-- Witness for C3 on concrete inputs: a fenced document round-trips, and a
fence-free text is returned stripped. -/
theorem generator_fence_roundtrip_witness :
    containsSub fenceClose ("<testCase/>").data = false ∧
    generate_extract ("```xml\n" ++ "<testCase/>" ++ "\n```") = pyStripStr "<testCase/>" ∧
    containsSub [backquote, backquote, backquote] (" plain text ").data = false ∧
    generate_extract " plain text " = pyStripStr " plain text " :=
  ⟨by decide, generator_fence_roundtrip.1 "<testCase/>" (by decide), by decide,
    generator_fence_roundtrip.2 " plain text " (by decide)⟩

/-! ## Element Extractor (`analyze_screenshot_with_ai`, app.py 187-201)

The JSON parser below models Python `json.loads` on the subset the vision
responses use: `null`/`true`/`false`, integer literals, strings with
single-character escapes (no `\u` escapes, fractions or exponents), arrays
and objects.  It is strict: it fails on malformed input and on leftover
non-whitespace input, exactly where `json.loads` raises. -/

/-- JSON values as produced by Python `json.loads`. -/
inductive Json where
  | null : Json
  | bool (b : Bool) : Json
  | num (n : Int) : Json
  | str (s : List Char) : Json
  | arr (xs : List Json) : Json
  | obj (kvs : List (List Char × Json)) : Json

/-- JSON inter-token whitespace. -/
def jsonWs (c : Char) : Bool := c = ' ' || c = '\t' || c = '\n' || c = '\r'

def skipWs : List Char → List Char
  | [] => []
  | c :: cs => if jsonWs c then skipWs cs else c :: cs

def isDigitCh (c : Char) : Bool := '0' ≤ c && c ≤ '9'

def digitVal (c : Char) : Nat := c.toNat - ('0').toNat

/-- Consume a run of digits, folding into the accumulator. -/
def digitsLoop : Nat → List Char → Nat × List Char
  | acc, [] => (acc, [])
  | acc, c :: rest =>
    if isDigitCh c then digitsLoop (acc * 10 + digitVal c) rest else (acc, c :: rest)

/-- Unsigned JSON integer literal: `0`, or a nonzero digit then digits. -/
def parseUIntLit : List Char → Option (Nat × List Char)
  | [] => none
  | c :: rest =>
    if c = '0' then some (0, rest)
    else if isDigitCh c then some (digitsLoop (digitVal c) rest)
    else none

/-- JSON number literal (integer subset, optionally negated). -/
def parseNumLit : List Char → Option (Json × List Char)
  | [] => none
  | c :: rest =>
    if c = '-' then (parseUIntLit rest).map (fun p => (Json.num (-(p.1 : Int)), p.2))
    else (parseUIntLit (c :: rest)).map (fun p => (Json.num ((p.1 : Int)), p.2))

/-- Single-character JSON string escapes. -/
def escChar (c : Char) : Option Char :=
  if c = '"' then some '"'
  else if c = '\\' then some '\\'
  else if c = '/' then some '/'
  else if c = 'b' then some (Char.ofNat 8)
  else if c = 'f' then some (Char.ofNat 12)
  else if c = 'n' then some '\n'
  else if c = 'r' then some '\r'
  else if c = 't' then some '\t'
  else none

/-- Body of a JSON string after the opening quote. -/
def parseStringRest : List Char → Option (List Char × List Char)
  | [] => none
  | '"' :: rest => some ([], rest)
  | '\\' :: e :: rest =>
    match escChar e with
    | some c => (parseStringRest rest).map (fun p => (c :: p.1, p.2))
    | none => none
  | c :: rest => (parseStringRest rest).map (fun p => (c :: p.1, p.2))

/-- Comma-separated array items up to the closing bracket; `p` parses one
value. -/
def parseItems (p : List Char → Option (Json × List Char)) :
    Nat → List Char → Option (List Json × List Char)
  | 0, _ => none
  | fuel + 1, cs =>
    match p cs with
    | none => none
    | some (v, r) =>
      match skipWs r with
      | ',' :: r2 => (parseItems p fuel r2).map (fun q => (v :: q.1, q.2))
      | ']' :: r2 => some ([v], r2)
      | _ => none

/-- Comma-separated `"key": value` pairs up to the closing brace. -/
def parsePairs (p : List Char → Option (Json × List Char)) :
    Nat → List Char → Option (List (List Char × Json) × List Char)
  | 0, _ => none
  | fuel + 1, cs =>
    match skipWs cs with
    | '"' :: r =>
      match parseStringRest r with
      | none => none
      | some (k, r1) =>
        match skipWs r1 with
        | ':' :: r2 =>
          match p r2 with
          | none => none
          | some (v, r3) =>
            match skipWs r3 with
            | ',' :: r4 => (parsePairs p fuel r4).map (fun q => ((k, v) :: q.1, q.2))
            | '}' :: r4 => some ([(k, v)], r4)
            | _ => none
        | _ => none
    | _ => none

/-- Fuel-bounded recursive-descent JSON value parser; returns the parsed
value and the unconsumed remainder. -/
def parseVal : Nat → List Char → Option (Json × List Char)
  | 0, _ => none
  | fuel + 1, cs =>
    match skipWs cs with
    | 'n' :: 'u' :: 'l' :: 'l' :: rest => some (Json.null, rest)
    | 't' :: 'r' :: 'u' :: 'e' :: rest => some (Json.bool true, rest)
    | 'f' :: 'a' :: 'l' :: 's' :: 'e' :: rest => some (Json.bool false, rest)
    | '"' :: rest => (parseStringRest rest).map (fun p => (Json.str p.1, p.2))
    | '[' :: rest =>
      match skipWs rest with
      | ']' :: r2 => some (Json.arr [], r2)
      | r2 => (parseItems (fun s => parseVal fuel s) fuel r2).map (fun p => (Json.arr p.1, p.2))
    | '{' :: rest =>
      match skipWs rest with
      | '}' :: r2 => some (Json.obj [], r2)
      | r2 => (parsePairs (fun s => parseVal fuel s) fuel r2).map (fun p => (Json.obj p.1, p.2))
    | rest => parseNumLit rest

/-- Python `json.loads` (modelled subset): one value, optionally surrounded
by whitespace; anything left over is an error. -/
def json_loads (cs : List Char) : Option Json :=
  match parseVal (cs.length + 1) cs with
  | some (v, rest) => if skipWs rest = [] then some v else none
  | none => none

/-- Index of the first occurrence of character `c`. -/
def firstIdx (c : Char) : List Char → Option Nat
  | [] => none
  | a :: as => if a = c then some 0 else (firstIdx c as).map (· + 1)

/-- Index of the last occurrence of character `c`. -/
def lastIdx (c : Char) : List Char → Option Nat
  | [] => none
  | a :: as =>
    match lastIdx c as with
    | some j => some (j + 1)
    | none => if a = c then some 0 else none

/-- The greedy bracket regex search of app.py 193 (a literal `[`, then any
characters, then a literal `]`, with a greedy quantifier): the match, when
one exists, runs from the first `[` to the last `]` in the whole text
(which must lie after that first `[`). -/
def bracketSpan (cs : List Char) : Option (List Char) :=
  match firstIdx '[' cs, lastIdx ']' cs with
  | some i, some j => if i < j then some ((cs.drop i).take (j - i + 1)) else none
  | _, _ => none

/-- The JSON-extraction step of `analyze_screenshot_with_ai` on a 200
response (app.py 192-201): take the bracket span, strict-parse it, and on
any failure (no span, or `json.loads` raising, which the enclosing `try`
catches) return the empty list. -/
def analyze_extract (content : String) : List Json :=
  match bracketSpan content.data with
  | none => []
  | some span =>
    match json_loads span with
    | some (Json.arr xs) => xs
    | _ => []

/-- Modelled from the spec: the Element Extractor as §4.1 words it — the
parse of "the substring bounded by the first `[` and a matching closing
`]` that yields valid structured data when parsed in isolation": from the
first `[`, the smallest-index `]` whose span parses as an array in
isolation; empty when no such span exists. -/
def specElementExtract (content : String) : List Json :=
  match firstIdx '[' content.data with
  | none => []
  | some i =>
    match (List.range content.data.length).findSome? (fun j =>
      if i < j ∧ content.data.get? j = some ']' then
        match json_loads ((content.data.drop i).take (j - i + 1)) with
        | some (Json.arr xs) => some xs
        | _ => none
      else none) with
    | some xs => xs
    | none => []

theorem firstIdx_spec {c : Char} {cs : List Char} {i : Nat}
    (h1 : cs.get? i = some c) (h2 : ∀ k, k < i → cs.get? k ≠ some c) :
    firstIdx c cs = some i := by
  induction cs generalizing i with
  | nil => simp at h1
  | cons a as ih =>
    cases i with
    | zero =>
      simp only [List.get?_cons_zero, Option.some.injEq] at h1
      simp [firstIdx, h1]
    | succ n =>
      have ha : ¬ a = c := by
        intro hh
        exact h2 0 (Nat.succ_pos n) (by simp [hh])
      have hrec := ih (by simpa using h1) (fun k hk => by
        have := h2 (k + 1) (Nat.succ_lt_succ hk)
        simpa using this)
      simp [firstIdx, ha, hrec]

theorem firstIdx_mem {c : Char} {cs : List Char} {i : Nat}
    (h : firstIdx c cs = some i) : cs.get? i = some c := by
  induction cs generalizing i with
  | nil => simp [firstIdx] at h
  | cons a as ih =>
    unfold firstIdx at h
    by_cases ha : a = c
    · rw [if_pos ha] at h
      obtain rfl : (0 : Nat) = i := by simpa using h
      simp [ha]
    · rw [if_neg ha] at h
      cases hf : firstIdx c as with
      | none => rw [hf] at h; simp at h
      | some n =>
        rw [hf] at h
        obtain rfl : n + 1 = i := by simpa using h
        simpa using ih hf

theorem lastIdx_none {c : Char} {cs : List Char}
    (h : ∀ k, cs.get? k ≠ some c) : lastIdx c cs = none := by
  induction cs with
  | nil => rfl
  | cons a as ih =>
    have ha : ¬ a = c := fun hh => h 0 (by simp [hh])
    have hrec := ih (fun k => by simpa using h (k + 1))
    simp [lastIdx, hrec, ha]

theorem lastIdx_spec {c : Char} {cs : List Char} {j : Nat}
    (h1 : cs.get? j = some c) (h2 : ∀ k, j < k → cs.get? k ≠ some c) :
    lastIdx c cs = some j := by
  induction cs generalizing j with
  | nil => simp at h1
  | cons a as ih =>
    cases j with
    | zero =>
      have ha : a = c := by simpa using h1
      have hnone : lastIdx c as = none :=
        lastIdx_none (fun k => by
          have := h2 (k + 1) (Nat.succ_pos k)
          simpa using this)
      simp [lastIdx, hnone, ha]
    | succ n =>
      have hrec := ih (by simpa using h1) (fun k hk => by
        have := h2 (k + 1) (Nat.succ_lt_succ hk)
        simpa using this)
      simp [lastIdx, hrec]

theorem lastIdx_mem {c : Char} {cs : List Char} {j : Nat}
    (h : lastIdx c cs = some j) : cs.get? j = some c := by
  induction cs generalizing j with
  | nil => simp [lastIdx] at h
  | cons a as ih =>
    unfold lastIdx at h
    cases hf : lastIdx c as with
    | some n =>
      rw [hf] at h
      obtain rfl : n + 1 = j := by simpa using h
      simpa using ih hf
    | none =>
      rw [hf] at h
      by_cases ha : a = c
      · rw [if_pos ha] at h
        obtain rfl : (0 : Nat) = j := by simpa using h
        simp [ha]
      · rw [if_neg ha] at h
        simp at h

/-- C4 counterexample: on `"[1,2] x ]"` the greedy span `[1,2] x ]` fails
the strict parse and the code returns `[]`, while the wording "matching
closing `]` that yields valid structured data" selects `[1,2]` and returns
its parse. -/
theorem analyze_extract_counterexample :
    analyze_extract "[1,2] x ]" = [] ∧
    specElementExtract "[1,2] x ]" = [Json.num 1, Json.num 2] ∧
    analyze_extract "[1,2] x ]" ≠ specElementExtract "[1,2] x ]" := by
  refine ⟨rfl, rfl, ?_⟩
  intro hh
  rw [show analyze_extract "[1,2] x ]" = [] from rfl,
    show specElementExtract "[1,2] x ]" = [Json.num 1, Json.num 2] from rfl] at hh
  exact List.noConfusion hh

/-- C4 (amended): the extractor never fails; when the text has a first `[`
at `i` and its last `]` at `j > i`, the result is the strict parse of the
span from `i` to `j` when that parses as an array, and `[]` otherwise
(in particular on every parse failure); when no `[`-before-`]` span
exists at all the result is `[]`. -/
theorem analyze_extract_spec :
    (∀ (content : String) (i j : Nat),
      content.data.get? i = some '[' →
      (∀ k, k < i → content.data.get? k ≠ some '[') →
      content.data.get? j = some ']' →
      (∀ k, j < k → content.data.get? k ≠ some ']') →
      i < j →
      analyze_extract content =
        match json_loads ((content.data.drop i).take (j - i + 1)) with
        | some (Json.arr xs) => xs
        | _ => []) ∧
    (∀ content : String,
      (∀ i j, i < j → ¬(content.data.get? i = some '[' ∧ content.data.get? j = some ']')) →
      analyze_extract content = []) := by
  constructor
  · intro content i j h1 h2 h3 h4 hij
    have hspan : bracketSpan content.data =
        some ((content.data.drop i).take (j - i + 1)) := by
      unfold bracketSpan
      rw [firstIdx_spec h1 h2, lastIdx_spec h3 h4]
      simp [hij]
    unfold analyze_extract
    rw [hspan]
  · intro content h
    have hspan : bracketSpan content.data = none := by
      unfold bracketSpan
      cases hf : firstIdx '[' content.data with
      | none => simp
      | some i =>
        cases hl : lastIdx ']' content.data with
        | none => simp
        | some j =>
          have hij : ¬ i < j := fun hlt =>
            h i j hlt ⟨firstIdx_mem hf, lastIdx_mem hl⟩
          simp [hij]
    unfold analyze_extract
    rw [hspan]

theorem get?_ne_of_ge {cs : List Char} {c : Char} {k : Nat} (h : cs.length ≤ k) :
    cs.get? k ≠ some c := by
  rw [List.get?_eq_none.mpr h]
  simp

/-- Witness for C4 at `"x[1, 2]y"`: first `[` at 1, last `]` at 6, span
`[1, 2]` parses, giving the two-element array. -/
theorem analyze_extract_spec_witness :
    analyze_extract "x[1, 2]y" =
      (match json_loads ((("x[1, 2]y").data.drop 1).take 6) with
        | some (Json.arr xs) => xs
        | _ => ([] : List Json)) ∧
    analyze_extract "x[1, 2]y" = [Json.num 1, Json.num 2] := by
  have happ := analyze_extract_spec.1 "x[1, 2]y" 1 6 (by decide)
    (by intro k hk; interval_cases k; decide)
    (by decide)
    (by
      intro k hk
      rcases Nat.lt_or_ge k 8 with h8 | h8
      · (interval_cases k; decide)
      · exact get?_ne_of_ge (by
          have hlen : ("x[1, 2]y").data.length = 8 := by decide
          omega))
    (by decide)
  exact ⟨happ, rfl⟩

/-! ## Vision request payload (`analyze_screenshot_with_ai`, app.py 142-185) -/

/-- The `source` object of the image content part (app.py 153-157). -/
structure ImageSource where
  type : String
  media_type : String
  data : String

/-- One element of the `content` array of the user message. -/
inductive ContentPart where
  | image (source : ImageSource) : ContentPart
  | text (t : String) : ContentPart

/-- One message of the `messages` array. -/
structure VisionMessage where
  role : String
  content : List ContentPart

/-- The JSON body of the vision `requests.post` (app.py 145-183). -/
structure VisionPayload where
  model : String
  max_tokens : Nat
  messages : List VisionMessage

/-- The fixed instruction prompt of the vision request (app.py 161-179),
verbatim. -/
def visionPrompt : String := "Analyze this Salesforce UI screenshot and identify all interactive elements.

Return ONLY a JSON array with this exact format (no other text):
[
  \x7b
    \"type\": \"input|button|dropdown|link|checkbox|textarea\",
    \"label\": \"visible text or placeholder\",
    \"id\": \"suggested element ID or name\",
    \"xpath\": \"suggested xpath locator\",
    \"action\": \"click|enterText|select|check\"
  \x7d
]

Focus on:
- Input fields (text, email, password)
- Buttons (submit, cancel, save, etc.)
- Dropdowns/select boxes
- Checkboxes and radio buttons
- Links and navigation elements"

/-- The request payload built for the base64 `image_data` of one screenshot
(app.py 145-183).  The `media_type` field is the literal `"image/jpeg"`
for every upload. -/
def buildVisionRequest (image_data : String) : VisionPayload :=
  { model := "claude-sonnet-4-20250514"
    max_tokens := 1000
    messages := [{ role := "user"
                   content := [ContentPart.image ⟨"base64", "image/jpeg", image_data⟩,
                               ContentPart.text visionPrompt] }] }

/-- All image attachments of a payload, in order. -/
def imagePartsOf (p : VisionPayload) : List ImageSource :=
  p.messages.foldr (fun m acc =>
    m.content.filterMap (fun part =>
      match part with
      | ContentPart.image s => some s
      | ContentPart.text _ => none) ++ acc) []

/-- All text parts of a payload, in order. -/
def textPartsOf (p : VisionPayload) : List String :=
  p.messages.foldr (fun m acc =>
    m.content.filterMap (fun part =>
      match part with
      | ContentPart.image _ => none
      | ContentPart.text t => some t) ++ acc) []

/-- Modelled from the spec: §3/§4.2 say the input image is "one of
JPEG/PNG/JPEG-variant" (the upload widget accepts png, jpg, jpeg —
app.py 483) and that the attachment is "tagged with its encoding"; the
media type naming each encoding. -/
inductive ImageEncoding where
  | jpeg : ImageEncoding
  | png : ImageEncoding

/-- Modelled from the spec: the media type that names an encoding. -/
def mediaTypeOf : ImageEncoding → String
  | ImageEncoding.jpeg => "image/jpeg"
  | ImageEncoding.png => "image/png"

/-- C6 counterexample: the payload built for a PNG upload still tags the
attachment `image/jpeg`, which is not the media type of the PNG encoding. -/
theorem vision_media_type_counterexample :
    imagePartsOf (buildVisionRequest "UE5HZGF0YQ==") =
      [⟨"base64", "image/jpeg", "UE5HZGF0YQ=="⟩] ∧
    "image/jpeg" ≠ mediaTypeOf ImageEncoding.png := by
  exact ⟨rfl, by decide⟩

/-- C6 (amended): for every image payload the request has the fixed model
and token limit, exactly one user turn, exactly one image attachment —
tagged `"image/jpeg"` regardless of the encoding of the upload — and the fixed
instruction text as the only text part. -/
theorem vision_request_shape (image_data : String) :
    (buildVisionRequest image_data).model = "claude-sonnet-4-20250514" ∧
    (buildVisionRequest image_data).max_tokens = 1000 ∧
    (buildVisionRequest image_data).messages.map (fun m => m.role) = ["user"] ∧
    imagePartsOf (buildVisionRequest image_data) = [⟨"base64", "image/jpeg", image_data⟩] ∧
    textPartsOf (buildVisionRequest image_data) = [visionPrompt] :=
  ⟨rfl, rfl, rfl, rfl, rfl⟩

/-- Witness for C6 at a concrete image. -/
theorem vision_request_shape_witness :
    imagePartsOf (buildVisionRequest "aW1n") = [⟨"base64", "image/jpeg", "aW1n"⟩] ∧
    textPartsOf (buildVisionRequest "aW1n") = [visionPrompt] :=
  ⟨(vision_request_shape "aW1n").2.2.2.1, (vision_request_shape "aW1n").2.2.2.2⟩

/-! ## Network call outcomes and the vision call (app.py 142-201) -/

/-- What a `requests.post` call did: returned 200 with a `content[0].text`
payload, returned a non-200 status with a body, or raised (transport
error / timeout, both surfacing as an exception). -/
inductive HttpOutcome where
  | success (bodyText : String) : HttpOutcome
  | httpError (status : Nat) (body : String) : HttpOutcome
  | transportError (msg : String) : HttpOutcome

def isFailureOutcome : HttpOutcome → Bool
  | HttpOutcome.success _ => false
  | _ => true

def isTransportError : HttpOutcome → Bool
  | HttpOutcome.transportError _ => true
  | _ => false

/-- Observable behaviour of one vision call. -/
structure VisionCallResult where
  elements : List Json
  errorSignaled : Bool
  extractorInvoked : Bool

/-- Whether the extraction raises inside the `try` on a 200 body (bracket
span present but `json.loads` fails), which triggers the `st.error`
message in the `except` handler. -/
def jsonSpanRaises (content : String) : Bool :=
  match bracketSpan content.data with
  | some span => (json_loads span).isNone
  | none => false

/-- The function `analyze_screenshot_with_ai` (app.py 137-201), given the
outcome of its call: 200 → run the regex/parse extraction on the body (the
`except` handler signals only if `json.loads` raised); any non-200 status
→ fall through to `return []` silently; exception from the call itself →
`st.error` and `[]`. -/
def analyze_screenshot_with_ai (o : HttpOutcome) : VisionCallResult :=
  match o with
  | HttpOutcome.success body => ⟨analyze_extract body, jsonSpanRaises body, true⟩
  | HttpOutcome.httpError _ _ => ⟨[], false, false⟩
  | HttpOutcome.transportError _ => ⟨[], true, false⟩

/-- C5 counterexample: an HTTP 500 yields no elements and no extractor run,
but also signals nothing to the caller — the function silently returns the
empty list, against the claimed `RequestFailure` signal. -/
theorem vision_failure_counterexample :
    (analyze_screenshot_with_ai (HttpOutcome.httpError 500 "Internal Server Error")).elements
        = [] ∧
    (analyze_screenshot_with_ai
        (HttpOutcome.httpError 500 "Internal Server Error")).extractorInvoked = false ∧
    ¬ (analyze_screenshot_with_ai
        (HttpOutcome.httpError 500 "Internal Server Error")).errorSignaled = true :=
  ⟨rfl, rfl, by decide⟩

/-- C5 (amended): on either failure outcome the vision call yields no
elements and never reaches the Element Extractor; a failure signal reaches
the caller exactly when the failure was a transport error (a non-success
status returns silently). -/
theorem vision_failure_behavior (o : HttpOutcome) (h : isFailureOutcome o = true) :
    (analyze_screenshot_with_ai o).elements = [] ∧
    (analyze_screenshot_with_ai o).extractorInvoked = false ∧
    (analyze_screenshot_with_ai o).errorSignaled = isTransportError o := by
  cases o with
  | success b => simp [isFailureOutcome] at h
  | httpError st b => exact ⟨rfl, rfl, rfl⟩
  | transportError m => exact ⟨rfl, rfl, rfl⟩

/-- Witness for C5 at a transport error. -/
theorem vision_failure_behavior_witness :
    isFailureOutcome (HttpOutcome.transportError "timeout") = true ∧
    (analyze_screenshot_with_ai (HttpOutcome.transportError "timeout")).elements = [] ∧
    (analyze_screenshot_with_ai (HttpOutcome.transportError "timeout")).extractorInvoked
        = false ∧
    (analyze_screenshot_with_ai (HttpOutcome.transportError "timeout")).errorSignaled =
      isTransportError (HttpOutcome.transportError "timeout") :=
  ⟨rfl, vision_failure_behavior (HttpOutcome.transportError "timeout") rfl⟩

/-! ## Generation call and the generate-button handler (app.py 203-332,
523-556) -/

/-- Observable behaviour of one generation call: the produced document (if
any) and the `st.error` message printed inside `generate_provar_test`. -/
structure GenerateCallResult where
  document : Option String
  errorMsg : Option String

/-- The function `generate_provar_test` (app.py 203-332), given the outcome
of its call.  The prompt-building inputs shape the issued request only; the
returned value depends on the outcome: 200 → fence-extract and strip the
body; non-200 → `st.error` with status and body, `None`; exception →
`st.error` with the cause, `None`. -/
def generate_provar_test (test_name url description dom_html : String)
    (detected_elements : List Json) (o : HttpOutcome) : GenerateCallResult :=
  match o with
  | HttpOutcome.success body => ⟨some (generate_extract body), none⟩
  | HttpOutcome.httpError status body =>
    ⟨none, some ("API Error: " ++ toString status ++ " - " ++ body)⟩
  | HttpOutcome.transportError m => ⟨none, some ("Test generation failed: " ++ m)⟩

/-- One uploaded screenshot held in session state (app.py 492-496; the PIL
image object is presentation-only and omitted). -/
structure Screenshot where
  name : String
  data : String

/-- The pipeline-relevant Streamlit session state (app.py 121-131). -/
structure SessionState where
  generated_test : Option String
  detected_elements : List Json
  validation_results : Option ValidationResult
  screenshots : List Screenshot

/-- Observable result of one generate-button click: the new session state,
how many vision and generation requests were issued, and the `st.error`
messages printed. -/
structure HandlerOutput where
  state : SessionState
  visionCalls : Nat
  genCalls : Nat
  errorMsgs : List String

/-- The screenshot-analysis loop (app.py 531-534): one vision call per
screenshot in upload order; `vis i` is the outcome of the `i`-th issued
call; each non-empty result extends the accumulated elements. -/
def runVisionLoop (vis : Nat → HttpOutcome) : List Screenshot → Nat → List Json × Nat
  | [], _ => ([], 0)
  | _ :: rest, i =>
    let r := analyze_screenshot_with_ai (vis i)
    let rr := runVisionLoop vis rest (i + 1)
    ((if r.elements.isEmpty then [] else r.elements) ++ rr.1, rr.2 + 1)

/-- The generate-button handler (app.py 523-556): the precondition guard,
then the vision loop (only when screenshots are queued and no elements are
yet accumulated), then one generation call; on a produced document store it
with its validation, else report and leave the stored document/validation
untouched.  The Python test `if generated_xml:` is a truthiness test, so
`None` and the empty string both take the failure branch. -/
def clickGenerate (test_name url description dom_html : String) (s : SessionState)
    (vis : Nat → HttpOutcome) (gen : HttpOutcome) : HandlerOutput :=
  if test_name == "" || description == "" then
    ⟨s, 0, 0, ["❌ Please provide Test Name and Description"]⟩
  else
    let vres :=
      if !s.screenshots.isEmpty && s.detected_elements.isEmpty then
        runVisionLoop vis s.screenshots 0
      else ([], 0)
    let s1 : SessionState := { s with detected_elements := s.detected_elements ++ vres.1 }
    let g := generate_provar_test test_name url description dom_html s1.detected_elements gen
    match g.document with
    | some xml =>
      if xml == "" then
        ⟨s1, vres.2, 1,
          g.errorMsg.toList ++ ["❌ Failed to generate test case. Please try again."]⟩
      else
        ⟨{ s1 with generated_test := some xml,
                   validation_results := some (validate_provar_test xml) },
          vres.2, 1, g.errorMsg.toList⟩
    | none =>
      ⟨s1, vres.2, 1,
        g.errorMsg.toList ++ ["❌ Failed to generate test case. Please try again."]⟩

/-- C7: with the guard satisfied, a failed generation call leaves the stored
document and validation result unchanged, issues exactly one generation
call, and reports the failure. -/
theorem generation_failure_frame (test_name url description dom_html : String)
    (s : SessionState) (vis : Nat → HttpOutcome) (gen : HttpOutcome)
    (h1 : test_name ≠ "") (h2 : description ≠ "") (h3 : isFailureOutcome gen = true) :
    (clickGenerate test_name url description dom_html s vis gen).state.generated_test =
      s.generated_test ∧
    (clickGenerate test_name url description dom_html s vis gen).state.validation_results =
      s.validation_results ∧
    (clickGenerate test_name url description dom_html s vis gen).genCalls = 1 ∧
    "❌ Failed to generate test case. Please try again." ∈
      (clickGenerate test_name url description dom_html s vis gen).errorMsgs := by
  have hguard : (test_name == "" || description == "") = false := by
    simp only [Bool.or_eq_false_iff, beq_eq_false_iff_ne, ne_eq]
    exact ⟨h1, h2⟩
  cases gen with
  | success b => simp [isFailureOutcome] at h3
  | httpError st b => simp [clickGenerate, hguard, generate_provar_test]
  | transportError m => simp [clickGenerate, hguard, generate_provar_test]

/-- A prior session state holding a generated document and its validation. -/
def priorState : SessionState :=
  ⟨some "<old/>", [], some (validate_provar_test "<old/>"), []⟩

/-- A concrete vision outcome oracle: the first call fails, later calls
succeed with two detected elements. -/
def witnessVis : Nat → HttpOutcome := fun k =>
  match k with
  | 0 => HttpOutcome.transportError "connection timed out"
  | _ => HttpOutcome.success "[\x7b\"type\": \"button\"\x7d, \x7b\"type\": \"input\"\x7d]"

/-- Witness for C7: an HTTP 500 on generation leaves the prior document and
validation in place. -/
theorem generation_failure_frame_witness :
    (clickGenerate "T" "" "desc" "" priorState witnessVis
        (HttpOutcome.httpError 500 "Internal Server Error")).state.generated_test =
      some "<old/>" ∧
    (clickGenerate "T" "" "desc" "" priorState witnessVis
        (HttpOutcome.httpError 500 "Internal Server Error")).state.validation_results =
      some (validate_provar_test "<old/>") ∧
    (clickGenerate "T" "" "desc" "" priorState witnessVis
        (HttpOutcome.httpError 500 "Internal Server Error")).genCalls = 1 ∧
    "❌ Failed to generate test case. Please try again." ∈
      (clickGenerate "T" "" "desc" "" priorState witnessVis
        (HttpOutcome.httpError 500 "Internal Server Error")).errorMsgs := by
  have h := generation_failure_frame "T" "" "desc" "" priorState witnessVis
    (HttpOutcome.httpError 500 "Internal Server Error") (by decide) (by decide) rfl
  exact ⟨h.1.trans rfl, h.2.1.trans rfl, h.2.2.1, h.2.2.2⟩

/-- C8: with an empty test name or description the handler reports the
precondition message, issues no vision or generation call, and leaves the
session state untouched. -/
theorem precondition_guard (test_name url description dom_html : String)
    (s : SessionState) (vis : Nat → HttpOutcome) (gen : HttpOutcome)
    (h : test_name = "" ∨ description = "") :
    clickGenerate test_name url description dom_html s vis gen =
      ⟨s, 0, 0, ["❌ Please provide Test Name and Description"]⟩ := by
  have hguard : (test_name == "" || description == "") = true := by
    rcases h with h | h <;> simp [h]
  unfold clickGenerate
  rw [hguard]
  simp

/-- An empty session state. -/
def emptyState : SessionState := ⟨none, [], none, []⟩

/-- Witness for C8 with an empty test name. -/
theorem precondition_guard_witness :
    clickGenerate "" "u" "d" "dom" emptyState witnessVis (HttpOutcome.success "x") =
      ⟨emptyState, 0, 0, ["❌ Please provide Test Name and Description"]⟩ :=
  precondition_guard "" "u" "d" "dom" emptyState witnessVis (HttpOutcome.success "x")
    (Or.inl rfl)

theorem emptyGuard_eq (l : List Json) : (if l.isEmpty then [] else l) = l := by
  cases l <;> simp

/-- The vision loop calls once per screenshot and accumulates, in order,
exactly the elements of each call (a failed call contributing nothing). -/
theorem runVisionLoop_spec (vis : Nat → HttpOutcome) (shots : List Screenshot) (i : Nat) :
    (runVisionLoop vis shots i).1 =
      ((List.range shots.length).map
        (fun k => (analyze_screenshot_with_ai (vis (i + k))).elements)).flatten ∧
    (runVisionLoop vis shots i).2 = shots.length := by
  induction shots generalizing i with
  | nil => exact ⟨rfl, rfl⟩
  | cons sc rest ih =>
    have h1 := (ih (i + 1)).1
    have h2 := (ih (i + 1)).2
    constructor
    · have harith : ((fun k => (analyze_screenshot_with_ai (vis (i + k))).elements) ∘ Nat.succ) =
          (fun k => (analyze_screenshot_with_ai (vis (i + 1 + k))).elements) := by
        funext k
        show (analyze_screenshot_with_ai (vis (i + Nat.succ k))).elements =
          (analyze_screenshot_with_ai (vis (i + 1 + k))).elements
        have hk : i + Nat.succ k = i + 1 + k := by omega
        rw [hk]
      simp only [runVisionLoop, emptyGuard_eq, h1, List.length_cons,
        List.range_succ_eq_map, List.map_cons, List.map_map, List.flatten_cons,
        Nat.add_zero, harith]
    · simp only [runVisionLoop, h2, List.length_cons]

/-- C9: with the guard satisfied and no elements yet accumulated, one vision
call is issued per queued screenshot in upload order, and the accumulated
element sequence is the in-order concatenation of the elements of each call —
failed calls contribute an empty delta without aborting the rest. -/
theorem vision_loop_accumulation (test_name url description dom_html : String)
    (s : SessionState) (vis : Nat → HttpOutcome) (gen : HttpOutcome)
    (h1 : test_name ≠ "") (h2 : description ≠ "") (h3 : s.detected_elements = []) :
    (clickGenerate test_name url description dom_html s vis gen).visionCalls =
      s.screenshots.length ∧
    (clickGenerate test_name url description dom_html s vis gen).state.detected_elements =
      ((List.range s.screenshots.length).map
        (fun k => (analyze_screenshot_with_ai (vis k)).elements)).flatten := by
  have hguard : (test_name == "" || description == "") = false := by
    simp only [Bool.or_eq_false_iff, beq_eq_false_iff_ne, ne_eq]
    exact ⟨h1, h2⟩
  have hspec := runVisionLoop_spec vis s.screenshots 0
  cases hsc : s.screenshots with
  | nil =>
    cases hd : gen with
    | success b =>
      by_cases hxml : (generate_extract b == "") = true <;>
        simp [clickGenerate, hguard, h3, hsc, generate_provar_test, hxml]
    | httpError st bd => simp [clickGenerate, hguard, h3, hsc, generate_provar_test]
    | transportError m => simp [clickGenerate, hguard, h3, hsc, generate_provar_test]
  | cons sc rest =>
    rw [hsc] at hspec
    have hzero : ∀ k, 0 + k = k := by omega
    cases hd : gen with
    | success b =>
      by_cases hxml : (generate_extract b == "") = true <;>
        simp [clickGenerate, hguard, h3, hsc, generate_provar_test, hxml, hspec.1, hspec.2,
          hzero, emptyGuard_eq]
    | httpError st bd =>
      simp [clickGenerate, hguard, h3, hsc, generate_provar_test, hspec.1, hspec.2,
        hzero, emptyGuard_eq]
    | transportError m =>
      simp [clickGenerate, hguard, h3, hsc, generate_provar_test, hspec.1, hspec.2,
        hzero, emptyGuard_eq]

/-- A session state with two queued screenshots and nothing accumulated. -/
def twoShotState : SessionState :=
  ⟨none, [], none, [⟨"a.png", "AAA"⟩, ⟨"b.png", "BBB"⟩]⟩

/-- Witness for C9, spec §8 Scenario D: two screenshots, the first vision
call fails, the second returns two elements; both calls are issued and the
accumulated sequence has length 2. -/
theorem vision_loop_accumulation_witness :
    (clickGenerate "T" "" "login and verify" "" twoShotState witnessVis
        (HttpOutcome.success "<testCase/>")).visionCalls = 2 ∧
    (clickGenerate "T" "" "login and verify" "" twoShotState witnessVis
        (HttpOutcome.success "<testCase/>")).state.detected_elements.length = 2 := by
  have h := vision_loop_accumulation "T" "" "login and verify" "" twoShotState witnessVis
    (HttpOutcome.success "<testCase/>") (by decide) (by decide) rfl
  constructor
  · rw [h.1]
    rfl
  · rw [h.2]
    rfl

end ProvarGen
